import Mathlib

/-!
# Pokemon_Navegación: list screen and detail screen

A shallow embedding of `app/(tabs)/index.js` (`PokemonListScreen`) and
`app/(tabs)/character/[id].js` (`PokemonDetail`).

* Values that come out of `response.json()` are untyped in the source, so they
  are embedded as `JsVal`; a property read on `null`/`undefined` throws.
* Every `useState` slot is a field of a state record; every asynchronous
  function is a function from the outcome of its network requests to the state
  it leaves behind.
* In-flight requests of the overlay are tracked as ghost state (`pending`).
-/

namespace PokemonNavegacion

/-! ## JavaScript values -/

/-- Values produced by `JSON.parse`, plus `undefined` (the result of reading an
absent property). Numbers are the integer-valued ones. -/
inductive JsVal where
  | undefined
  | null
  | bool (b : Bool)
  | num (n : Int)
  | str (s : String)
  | arr (items : List JsVal)
  | obj (props : List (String × JsVal))

namespace JsVal

/-- JavaScript truthiness (`if (v)`, `v ? a : b`, `!v`, `v || w`). -/
def truthy : JsVal → Bool
  | undefined => false
  | null => false
  | bool b => b
  | num n => n != 0
  | str s => s != ""
  | arr _ => true
  | obj _ => true

/-- Property read `v.key` for the data keys used by the screens: a `TypeError`
on `null` and `undefined`, the own property of an object, `undefined` when the
value has no such property. -/
def get (v : JsVal) (key : String) : Except String JsVal :=
  match v with
  | undefined => .error ("Cannot read properties of undefined (reading " ++ key ++ ")")
  | null => .error ("Cannot read properties of null (reading " ++ key ++ ")")
  | obj props => .ok ((props.lookup key).getD undefined)
  | _ => .ok undefined

/-- The operator `a || b`. -/
def or (a b : JsVal) : JsVal := if a.truthy then a else b

end JsVal

/-! ## Network -/

/-- Response object of `fetch`: the status code and what `response.json()`
settles to (the parsed body, or the message of the rejection). -/
structure Response where
  status : Nat
  json : Except String JsVal

/-- Getter `response.ok`: the status is in the range 200 to 299. -/
def Response.ok (r : Response) : Bool := decide (200 ≤ r.status ∧ r.status ≤ 299)

/-- Outcome of one `fetch(url)` call: the promise rejects (network failure) with
an error carrying `message`, or it resolves with a response. -/
inductive FetchResult where
  | rejected (message : String)
  | resolved (response : Response)

/-- The statement pair `const r = await fetch(u); const d = await r.json()` of
`index.js`, which does not look at the status. -/
def awaitJson : FetchResult → Except String JsVal
  | .rejected message => .error message
  | .resolved response => response.json

/-! ## List screen (`index.js`) -/

/-- Object built by the enrichment callback (lines 24-29). -/
structure Item where
  id : JsVal
  name : JsVal
  image : JsVal
  url : JsVal

/-- The five `useState` slots of `PokemonListScreen`. -/
structure ListState where
  pokemonList : List Item
  loading : Bool
  selectedPokemon : JsVal
  modalVisible : Bool
  loadingDetails : Bool

/-- Initial values of the `useState` calls (lines 8-12). -/
def ListState.initial : ListState :=
  { pokemonList := [], loading := true, selectedPokemon := .null,
    modalVisible := false, loadingDetails := false }

/-- The async callback passed to `data.results.map` (lines 21-30), given the
outcome of its `fetch(pokemon.url)`. An error is a rejected promise. -/
def enrich (pokemon : JsVal) (r : FetchResult) : Except String Item := do
  let _ ← pokemon.get "url"
  let pokemonData ← awaitJson r
  let id ← pokemonData.get "id"
  let name ← pokemonData.get "name"
  let sprites ← pokemonData.get "sprites"
  let image ← sprites.get "front_default"
  let url ← pokemon.get "url"
  pure { id := id, name := name, image := image, url := url }

/-- Call `value.map(...)`: only an array has a `map` method. -/
def asArray : JsVal → Except String (List JsVal)
  | .arr items => .ok items
  | .undefined => .error "Cannot read properties of undefined (reading map)"
  | .null => .error "Cannot read properties of null (reading map)"
  | _ => .error "data.results.map is not a function"

/-- The promises of `data.results.map(async (pokemon) => ...)`: the `i`-th
callback sees the outcome `secondary i` of its own request. -/
def mapAsync (secondary : Nat → FetchResult) : Nat → List JsVal → List (Except String Item)
  | _, [] => []
  | i, pokemon :: rest => enrich pokemon (secondary i) :: mapAsync secondary (i + 1) rest

/-- `await Promise.all(promises)`: the array of all values when every promise
is fulfilled, a rejection when one is rejected. -/
def promiseAll : List (Except String Item) → Except String (List Item)
  | [] => .ok []
  | .error e :: _ => .error e
  | .ok item :: rest =>
    match promiseAll rest with
    | .ok items => .ok (item :: items)
    | .error e => .error e

/-- Entries of the index response: `data.results` as the array that is mapped
over (lines 17-21). -/
def indexEntries (index : FetchResult) : Except String (List JsVal) := do
  let data ← awaitJson index
  let results ← data.get "results"
  asArray results

/-- The `try` block of `fetchPokemonList` up to the combined wait (lines 17-31). -/
def detailedPokemonList (index : FetchResult) (secondary : Nat → FetchResult) :
    Except String (List Item) := do
  let entries ← indexEntries index
  promiseAll (mapAsync secondary 0 entries)

/-- Effect `fetchPokemonList` (lines 15-39) run to completion on state `s`. -/
def fetchPokemonList (index : FetchResult) (secondary : Nat → FetchResult)
    (s : ListState) : ListState :=
  match detailedPokemonList index secondary with
  | .ok detailed => { s with pokemonList := detailed, loading := false }
  | .error _ => { s with loading := false }

/-- What `PokemonListScreen` returns: the loading view (lines 64-71) or the grid
fed with `pokemonList` (lines 73-168). -/
inductive ListView where
  | loadingView
  | grid (data : List Item)

/-- Top-level branch of the list screen's render (line 64). -/
def listView (s : ListState) : ListView :=
  if s.loading then .loadingView else .grid s.pokemonList

/-! ### Overlay -/

/-- `handlePokemonPress` up to its first `await` (lines 45-49): the two state
updates; the request for `pokemon.url` is now in flight. -/
def handlePokemonPress (_pokemon : Item) (s : ListState) : ListState :=
  { s with loadingDetails := true, modalVisible := true }

/-- The rest of `handlePokemonPress` (lines 49-56), run when its request has the
outcome `r`: `try` stores the parsed body, `catch` only logs, `finally` clears
`loadingDetails`. -/
def handlePokemonPressSettled (r : FetchResult) (s : ListState) : ListState :=
  match awaitJson r with
  | .ok fullData => { s with selectedPokemon := fullData, loadingDetails := false }
  | .error _ => { s with loadingDetails := false }

/-- Function `closeModal` (lines 59-62). -/
def closeModal (s : ListState) : ListState :=
  { s with modalVisible := false, selectedPokemon := .null }

/-- The three alternatives of the overlay body (lines 112-162). -/
inductive OverlayBranch where
  | loadingBranch
  | recordBranch (selectedPokemon : JsVal)
  | unavailableBranch

/-- The conditional `loadingDetails ? ... : selectedPokemon ? ... : ...`. -/
def overlayBranch (s : ListState) : OverlayBranch :=
  if s.loadingDetails then .loadingBranch
  else if s.selectedPokemon.truthy then .recordBranch s.selectedPokemon
  else .unavailableBranch

/-- List screen together with its in-flight detail requests: `pending` holds the
numbers of the presses whose request has not settled, `issued` counts presses. -/
structure Overlay where
  ui : ListState
  pending : List Nat
  issued : Nat

/-- Events of the overlay. -/
inductive OverlayEvent where
  | press (item : Item)
  | close
  | settle (k : Nat) (r : FetchResult)

/-- One event. The request of press number `k` settles only while it is
pending. -/
def Overlay.step (o : Overlay) : OverlayEvent → Overlay
  | .press item =>
    { ui := handlePokemonPress item o.ui, pending := o.pending ++ [o.issued],
      issued := o.issued + 1 }
  | .close => { o with ui := closeModal o.ui }
  | .settle k r =>
    if k ∈ o.pending then
      { o with ui := handlePokemonPressSettled r o.ui, pending := o.pending.erase k }
    else o

/-- A sequence of events. -/
def Overlay.run (o : Overlay) (events : List OverlayEvent) : Overlay :=
  events.foldl Overlay.step o

/-- The mounted list screen with the grid loaded and no request in flight. -/
def Overlay.initial (pokemonList : List Item) : Overlay :=
  { ui := { ListState.initial with pokemonList := pokemonList, loading := false },
    pending := [], issued := 0 }

/-- No event of the sequence settles a request that is pending when it
arrives. -/
def Overlay.quiet : Overlay → List OverlayEvent → Bool
  | _, [] => true
  | o, .settle k r :: rest => !(decide (k ∈ o.pending)) && quiet (o.step (.settle k r)) rest
  | o, e :: rest => quiet (o.step e) rest

/-! ## Detail screen (`character/[id].js`) -/

/-- The three `useState` slots of `PokemonDetail` (lines 11-13); `error` is
`null` or the stored `err.message`. -/
structure DetailState where
  pokemon : JsVal
  loading : Bool
  error : JsVal

/-- Initial values (lines 11-13). -/
def DetailState.initial : DetailState :=
  { pokemon := .null, loading := true, error := .null }

/-- The `try` block of `fetchPokemon` (lines 18-28) before the state updates:
the value passed to `setPokemon`, or the `message` of what was thrown. -/
def fetchPokemonData : FetchResult → Except String JsVal
  | .rejected message => .error message
  | .resolved response =>
    if !response.ok then .error ("API error: " ++ toString response.status)
    else do
      let data ← response.json
      let _ ← data.get "name"
      pure data

/-- Effect `fetchPokemon` (lines 16-34) run to completion on state `s`. -/
def fetchPokemon (r : FetchResult) (s : DetailState) : DetailState :=
  match fetchPokemonData r with
  | .ok data => { s with pokemon := data, loading := false }
  | .error message => { s with error := .str message, loading := false }

/-- What `PokemonDetail` returns (lines 39-111). -/
inductive DetailView where
  | loadingView
  | errorView (message : JsVal)
  | successView (pokemon : JsVal)

/-- The two guards of the render (lines 39 and 48). -/
def detailView (s : DetailState) : DetailView :=
  if s.loading then .loadingView
  else if s.error.truthy || !s.pokemon.truthy then
    .errorView (s.error.or (.str "Datos no disponibles"))
  else .successView s.pokemon

/-- Detail screen together with the number of requests in flight. -/
structure Detail where
  ui : DetailState
  inFlight : Nat

/-- Events of the detail screen: the identifier changes (the effect runs again
and issues a request, lines 36-37), or a request in flight settles. -/
inductive DetailEvent where
  | idChanged
  | settle (r : FetchResult)

/-- One event. -/
def Detail.step (d : Detail) : DetailEvent → Detail
  | .idChanged => { d with inFlight := d.inFlight + 1 }
  | .settle r =>
    if 0 < d.inFlight then { ui := fetchPokemon r d.ui, inFlight := d.inFlight - 1 } else d

/-- A sequence of events. -/
def Detail.run (d : Detail) (events : List DetailEvent) : Detail :=
  events.foldl Detail.step d

/-- The screen right after mount: the effect has issued its first request. -/
def Detail.initial : Detail := { ui := DetailState.initial, inFlight := 1 }

/-- The host reports every failure with a non-empty `message`. -/
def FetchResult.named : FetchResult → Bool
  | .rejected message => message != ""
  | .resolved response =>
    match response.json with
    | .error message => message != ""
    | .ok _ => true

/-- Every settling request of the sequence satisfies `FetchResult.named`. -/
def DetailEvent.named : DetailEvent → Bool
  | .idChanged => true
  | .settle r => r.named

/-! ## Display formatting (both files) -/

/-- Own properties of the `statMap` literal (lines 116-123 of `[id].js`,
173-180 of `index.js`). -/
def statMap : List (String × String) :=
  [("hp", "HP"), ("attack", "Ataque"), ("defense", "Defensa"),
   ("special-attack", "Atq. Especial"), ("special-defense", "Def. Especial"),
   ("speed", "Velocidad")]

/-- Property names an object literal inherits from `Object.prototype`. -/
def objectPrototypeKeys : List String :=
  ["constructor", "hasOwnProperty", "isPrototypeOf", "propertyIsEnumerable",
   "toLocaleString", "toString", "valueOf", "__proto__", "__defineGetter__",
   "__defineSetter__", "__lookupGetter__", "__lookupSetter__"]

/-- Value of `formatStatName`: a string, or the function or object that the
bracket read found on the prototype. -/
inductive StatLabel where
  | text (s : String)
  | inherited (property : String)
deriving DecidableEq

/-- The read `statMap[statName]`: an own property, else an inherited one, else
`undefined` (`none`). -/
def statMapGet (statName : String) : Option StatLabel :=
  match statMap.lookup statName with
  | some label => some (.text label)
  | none => if statName ∈ objectPrototypeKeys then some (.inherited statName) else none

/-- Truthiness of a `StatLabel`: functions and objects are truthy. -/
def StatLabel.truthy : StatLabel → Bool
  | .text s => s != ""
  | .inherited _ => true

/-- Helper `formatStatName` (the same body in both files):
`statMap[statName] || statName`. -/
def formatStatName (statName : String) : StatLabel :=
  match statMapGet statName with
  | some v => if v.truthy then v else .text statName
  | none => .text statName

/-- `Math.min(a, b)` on integers. -/
def mathMin (a b : Int) : Int := if a ≤ b then a else b

/-- One row of the statistics section (lines 89-95 of `[id].js`, 138-144 of
`index.js`): label, displayed value and the `width` style of the bar. -/
structure StatRow where
  label : StatLabel
  value : Int
  width : String

/-- The callback of `stats.map` on a stat named `statName` with integer
`base_stat`. -/
def statRow (statName : String) (base_stat : Int) : StatRow :=
  { label := formatStatName statName,
    value := base_stat,
    width := toString (mathMin base_stat 100) ++ "%" }

/-- Number in front of `%` in the bar width. -/
def statBarPercent (base_stat : Int) : Int := mathMin base_stat 100

/-- The expression `s.charAt(0).toUpperCase() + s.slice(1)` on a string given
as its sequence of code units; `toUpperCase` is the host's method. -/
def capitalize {α : Type} (toUpperCase : List α → List α) (s : List α) : List α :=
  toUpperCase (s.take 1) ++ s.drop 1

/-- Upper-casing of the ASCII letters, on code units. -/
def asciiUpper (s : List Nat) : List Nat :=
  s.map (fun u => if 97 ≤ u ∧ u ≤ 122 then u - 32 else u)

/-! ## Grid cells (`index.js`, lines 86-102) -/

/-- Built-in methods of the JavaScript engine, which are not part of the
repository: `String.prototype.toUpperCase` on code units, and the `toString`
methods of the built-in prototypes applied to a value. -/
structure Host where
  toUpperCase : List Nat → List Nat
  toStringOf : JsVal → String

/-- UTF-16 code units of a string. -/
def utf16 : List Char → List Nat
  | [] => []
  | c :: cs =>
    (if c.toNat < 65536 then [c.toNat]
     else [55296 + (c.toNat - 65536) / 1024, 56320 + (c.toNat - 65536) % 1024]) ++ utf16 cs

/-- The `keyExtractor` of the list (line 88): `item.id.toString()`. The read of
`toString` throws on `null` and `undefined`; an own `toString` property of a
parsed object is data, not a function, so calling it throws; otherwise the
built-in method runs. -/
def keyExtractor (host : Host) (item : Item) : Except String String :=
  match item.id with
  | .undefined => .error "Cannot read properties of undefined (reading toString)"
  | .null => .error "Cannot read properties of null (reading toString)"
  | .obj props =>
    if (props.lookup "toString").isSome then .error "item.id.toString is not a function"
    else .ok (host.toStringOf (.obj props))
  | v => .ok (host.toStringOf v)

/-- What `renderItem` puts into a cell (lines 92-100): the image source, the
text of the name and the children of the badge `<Text>#{item.id}</Text>`. -/
structure CellContent where
  image : JsVal
  name : List Nat
  badge : List JsVal

/-- The `renderItem` callback (lines 91-101). Only a string has `charAt`; the
read throws on `null` and `undefined`, the call throws on any other value. -/
def renderItem (host : Host) (item : Item) : Except String CellContent :=
  match item.name with
  | .str name =>
    .ok { image := item.image,
          name := capitalize host.toUpperCase (utf16 name.toList),
          badge := [.str "#", item.id] }
  | .undefined => .error "Cannot read properties of undefined (reading charAt)"
  | .null => .error "Cannot read properties of null (reading charAt)"
  | _ => .error "item.name.charAt is not a function"

/-- A cell of the grid: its key and its content. -/
structure Cell where
  key : String
  content : CellContent

/-- The cell the list builds for one item of `data`: the key first, then the
element returned by `renderItem`; a throw in either is a render fault. -/
def gridCell (host : Host) (item : Item) : Except String Cell := do
  let key ← keyExtractor host item
  let content ← renderItem host item
  pure { key := key, content := content }

/-- The `i`-th cell of the rendered screen: none in the loading view and
beyond the end of `data`. -/
def cellAt (host : Host) : ListView → Nat → Option (Except String Cell)
  | .loadingView, _ => none
  | .grid data, i => (data[i]?).map (gridCell host)

/-- The record of spec section 3 at its top level, as the success branch reads
it: `name` a string, `sprites` an object, `types`, `stats` and `abilities`
arrays. -/
def populatedRecord (v : JsVal) : Bool :=
  match v.get "name", v.get "sprites", v.get "types", v.get "stats", v.get "abilities" with
  | .ok (.str _), .ok (.obj _), .ok (.arr _), .ok (.arr _), .ok (.arr _) => true
  | _, _, _, _, _ => false

/-! ## Sample data -/

/-- A record as the detail endpoint returns it for `bulbasaur` (abridged). -/
def bulbasaurRecord : JsVal :=
  .obj [("id", .num 1), ("name", .str "bulbasaur"), ("height", .num 7), ("weight", .num 69),
        ("sprites", .obj [("front_default", .str "https://img.example/1.png")]),
        ("types", .arr []), ("stats", .arr []), ("abilities", .arr [])]

/-- Grid item of `bulbasaur`. -/
def bulbasaurItem : Item :=
  { id := .num 1, name := .str "bulbasaur", image := .str "https://img.example/1.png",
    url := .str "https://pokeapi.co/api/v2/pokemon/1/" }

/-- Grid item of `ivysaur`. -/
def ivysaurItem : Item :=
  { id := .num 2, name := .str "ivysaur", image := .str "https://img.example/2.png",
    url := .str "https://pokeapi.co/api/v2/pokemon/2/" }

/-- Index entry of `bulbasaur`. -/
def bulbasaurEntry : JsVal :=
  .obj [("name", .str "bulbasaur"), ("url", .str "https://pokeapi.co/api/v2/pokemon/1/")]

/-- Index entry of `ivysaur`. -/
def ivysaurEntry : JsVal :=
  .obj [("name", .str "ivysaur"), ("url", .str "https://pokeapi.co/api/v2/pokemon/2/")]

/-- An index response with two entries. -/
def sampleIndex : FetchResult :=
  .resolved { status := 200, json := .ok (.obj [("results", .arr [bulbasaurEntry, ivysaurEntry])]) }

/-- Response 200 carrying `bulbasaurRecord`. -/
def bulbasaurResponse : FetchResult :=
  .resolved { status := 200, json := .ok bulbasaurRecord }

/-- A failed request. -/
def networkFailure : FetchResult := .rejected "Network request failed"

/-- A 404 response whose body is a JSON error object. -/
def notFoundJson : FetchResult :=
  .resolved { status := 404, json := .ok (.obj [("detail", .str "Not found.")]) }

/-- A 404 response whose body is not JSON. -/
def notFoundText : FetchResult :=
  .resolved { status := 404, json := .error "JSON Parse error: Unexpected character: N" }

/-- The code units of `pikachu`. -/
def pikachu : List Nat := [112, 105, 107, 97, 99, 104, 117]

/-- The code units of `Pikachu`. -/
def pikachuCap : List Nat := [80, 105, 107, 97, 99, 104, 117]

/-- A promise is rejected. -/
def rejects {α : Type} : Except String α → Bool
  | .ok _ => false
  | .error _ => true

/-- A 200 response whose body is the JSON literal `false`. -/
def falseBody : FetchResult := .resolved { status := 200, json := .ok (.bool false) }

/-- The event is a press. -/
def OverlayEvent.isPress : OverlayEvent → Bool
  | .press _ => true
  | _ => false

/-- The event settles the request of press number `k`. -/
def OverlayEvent.settles (k : Nat) : OverlayEvent → Bool
  | .settle j _ => j == k
  | _ => false

/-- A 200 response whose body is the empty object. -/
def emptyObjectBody : FetchResult := .resolved { status := 200, json := .ok (.obj []) }

/-- A 200 response whose body has `sprites` but neither `id` nor `name`. -/
def spritesOnlyResponse : FetchResult :=
  .resolved { status := 200, json := .ok (.obj [("sprites", .obj [])]) }

/-- A 500 response carrying `bulbasaurRecord`. -/
def serverErrorWithRecord : FetchResult :=
  .resolved { status := 500, json := .ok bulbasaurRecord }

/-- An index response with one entry. -/
def singleIndex : FetchResult :=
  .resolved { status := 200, json := .ok (.obj [("results", .arr [bulbasaurEntry])]) }

/-- A host used for evaluation: ASCII upper-casing, and the `toString` of
small integers, strings and booleans. -/
def sampleHost : Host :=
  { toUpperCase := asciiUpper,
    toStringOf := fun v =>
      match v with
      | .num n => toString n
      | .str text => text
      | .bool b => if b then "true" else "false"
      | _ => "" }

/-! ## Theorems -/

theorem append_ne_empty (a b : String) (h : a ≠ "") : a ++ b ≠ "" := by
  intro hab
  apply h
  have hd : (a ++ b).data = [] := by rw [hab]
  rw [String.data_append] at hd
  exact String.ext (List.append_eq_nil.mp hd).1

theorem str_append_truthy (a b : String) (h : a ≠ "") : (JsVal.str (a ++ b)).truthy = true := by
  simp [JsVal.truthy, append_ne_empty a b h]

/-- C7: for every integer `base_stat` the bar width is `min(base_stat, 100)`
percent, never above 100, while the displayed value is `base_stat` itself;
55 gives 55% and 55, 180 gives 100% and 180. -/
theorem statBar_width_is_min (statName : String) (base_stat : Int) :
    statBarPercent base_stat = min base_stat 100 ∧
    (statRow statName base_stat).width = toString (statBarPercent base_stat) ++ "%" ∧
    (statRow statName base_stat).value = base_stat ∧
    statBarPercent base_stat ≤ 100 ∧
    (statRow statName 55).width = "55%" ∧ (statRow statName 55).value = 55 ∧
    (statRow statName 180).width = "100%" ∧ (statRow statName 180).value = 180 := by
  refine ⟨?_, rfl, rfl, ?_, rfl, rfl, rfl, rfl⟩
  · unfold statBarPercent mathMin
    split <;> omega
  · unfold statBarPercent mathMin
    split <;> omega

/-- C6 (evaluation at the failing input): `constructor` is not one of the six
keys of the table, yet `formatStatName` does not return it unchanged: the
bracket read finds the inherited `Object.prototype.constructor`, which is
truthy, so the fallback is not taken. -/
theorem formatStatName_constructor :
    statMap.lookup "constructor" = none ∧
    formatStatName "constructor" = .inherited "constructor" ∧
    formatStatName "constructor" ≠ .text "constructor" := by
  decide

theorem formatStatName_mapped :
    formatStatName "hp" = .text "HP" ∧ formatStatName "attack" = .text "Ataque" ∧
    formatStatName "defense" = .text "Defensa" ∧
    formatStatName "special-attack" = .text "Atq. Especial" ∧
    formatStatName "special-defense" = .text "Def. Especial" ∧
    formatStatName "speed" = .text "Velocidad" ∧
    formatStatName "accuracy" = .text "accuracy" := by
  decide

theorem formatStatName_unmapped (s : String) (hown : statMap.lookup s = none)
    (hproto : s ∉ objectPrototypeKeys) : formatStatName s = .text s := by
  simp [formatStatName, statMapGet, hown, hproto]

/-- C8: capitalization is idempotent and leaves everything after the first
code unit unchanged, for every string, given that the host `toUpperCase` maps
the empty string to itself, a one-unit string to a non-empty string, and the
first unit of an upper-cased one-unit string to itself. -/
theorem capitalize_idempotent {α : Type} (toUpperCase : List α → List α)
    (hnil : toUpperCase [] = [])
    (hne : ∀ c, toUpperCase [c] ≠ [])
    (hstable : ∀ c, toUpperCase ((toUpperCase [c]).take 1) = (toUpperCase [c]).take 1)
    (s : List α) :
    capitalize toUpperCase (capitalize toUpperCase s) = capitalize toUpperCase s ∧
    s.drop 1 <:+ capitalize toUpperCase s := by
  constructor
  · cases s with
    | nil => simp [capitalize, hnil]
    | cons c rest =>
      have h2 := hstable c
      have h1 := hne c
      simp only [capitalize, List.take_succ_cons, List.take_zero, List.drop_succ_cons,
        List.drop_zero]
      cases hu : toUpperCase [c] with
      | nil => exact absurd hu h1
      | cons d us =>
        rw [hu] at h2
        simp only [List.take_succ_cons, List.take_zero] at h2
        simp [h2]
  · exact List.suffix_append _ _

theorem asciiUpper_stable (c : Nat) :
    asciiUpper ((asciiUpper [c]).take 1) = (asciiUpper [c]).take 1 := by
  simp only [asciiUpper, List.map_cons, List.map_nil, List.take_succ_cons, List.take_zero]
  by_cases h : 97 ≤ c ∧ c ≤ 122
  · have h2 : ¬ (97 ≤ c - 32 ∧ c - 32 ≤ 122) := by omega
    simp only [h, h2, and_self, if_true, if_false]
  · simp [h]

/-- C8 at `pikachu` with the ASCII upper-casing: `pikachu` gives `Pikachu`,
which gives `Pikachu`. -/
theorem capitalize_idempotent_witness :
    capitalize asciiUpper pikachu = pikachuCap ∧
    capitalize asciiUpper pikachuCap = pikachuCap ∧
    capitalize asciiUpper (capitalize asciiUpper pikachu) = capitalize asciiUpper pikachu ∧
    pikachu.drop 1 <:+ capitalize asciiUpper pikachu :=
  ⟨by decide, by decide,
   capitalize_idempotent asciiUpper rfl (by intro c; simp [asciiUpper]) asciiUpper_stable pikachu⟩

/-- C9 (counterexample): a 200 response with the body `{}` leaves
`loading = false`, no error and `pokemon = {}`; the render selects the success
branch although `pokemon` is not a populated record. -/
theorem detailView_success_unpopulated :
    (fetchPokemon emptyObjectBody DetailState.initial).loading = false ∧
    (fetchPokemon emptyObjectBody DetailState.initial).error.truthy = false ∧
    detailView (fetchPokemon emptyObjectBody DetailState.initial) = .successView (.obj []) ∧
    populatedRecord (.obj []) = false ∧
    populatedRecord bulbasaurRecord = true := by
  refine ⟨rfl, rfl, rfl, rfl, rfl⟩

/-- C9 (amended): for every state the render selects exactly one branch:
loading iff `loading`; error iff not loading and (`error` truthy or `pokemon`
falsy); success iff not loading, `error` falsy and `pokemon` truthy, and the
value shown is `pokemon`. -/
theorem detailView_exclusive (s : DetailState) :
    (detailView s = .loadingView ↔ s.loading = true) ∧
    ((∃ m, detailView s = .errorView m) ↔
      s.loading = false ∧ (s.error.truthy = true ∨ s.pokemon.truthy = false)) ∧
    ((∃ p, detailView s = .successView p) ↔
      s.loading = false ∧ s.error.truthy = false ∧ s.pokemon.truthy = true) ∧
    (∀ p, detailView s = .successView p → p = s.pokemon) := by
  unfold detailView
  cases hl : s.loading <;> cases he : s.error.truthy <;> cases hp : s.pokemon.truthy <;> simp

/-- C2: when the response is not 2xx, `fetchPokemon` leaves `loading = false`,
`error` = `API error: ` followed by the decimal status (so the message contains
the status code), `pokemon` unchanged, and the render selects the error
branch showing that message. -/
theorem fetchPokemon_not_ok (s : DetailState) (response : Response)
    (hok : response.ok = false) :
    (fetchPokemon (.resolved response) s).loading = false ∧
    (fetchPokemon (.resolved response) s).error =
      .str ("API error: " ++ toString response.status) ∧
    (toString response.status).data <:+: ("API error: " ++ toString response.status).data ∧
    (fetchPokemon (.resolved response) s).pokemon = s.pokemon ∧
    detailView (fetchPokemon (.resolved response) s) =
      .errorView (.str ("API error: " ++ toString response.status)) := by
  have ht := str_append_truthy "API error: " (toString response.status) (by decide)
  refine ⟨?_, ?_, ?_, ?_, ?_⟩
  · simp [fetchPokemon, fetchPokemonData, hok]
  · simp [fetchPokemon, fetchPokemonData, hok]
  · rw [String.data_append]
    exact (List.suffix_append _ _).isInfix
  · simp [fetchPokemon, fetchPokemonData, hok]
  · simp [fetchPokemon, fetchPokemonData, hok, detailView, ht, JsVal.or]

/-- C2 at identifier `999999`: a 404 response. -/
theorem fetchPokemon_not_ok_witness :
    (fetchPokemon notFoundText DetailState.initial).loading = false ∧
    (fetchPokemon notFoundText DetailState.initial).error = .str ("API error: " ++ toString 404) ∧
    (toString 404).data <:+: ("API error: " ++ toString 404).data ∧
    (fetchPokemon notFoundText DetailState.initial).pokemon = DetailState.initial.pokemon ∧
    detailView (fetchPokemon notFoundText DetailState.initial) =
      .errorView (.str ("API error: " ++ toString 404)) :=
  fetchPokemon_not_ok DetailState.initial
    { status := 404, json := .error "JSON Parse error: Unexpected character: N" } (by decide)

theorem enrich_ok {pokemon : JsVal} {r : FetchResult} {item : Item}
    (h : enrich pokemon r = .ok item) :
    ∃ pokemonData sprites, awaitJson r = .ok pokemonData ∧
      pokemonData.get "id" = .ok item.id ∧ pokemonData.get "name" = .ok item.name ∧
      pokemonData.get "sprites" = .ok sprites ∧ sprites.get "front_default" = .ok item.image ∧
      pokemon.get "url" = .ok item.url := by
  unfold enrich at h
  cases hu : pokemon.get "url" with
  | error e => simp [hu, bind, Except.bind] at h
  | ok url =>
    cases hj : awaitJson r with
    | error e => simp [hu, hj, bind, Except.bind] at h
    | ok pokemonData =>
      cases hid : pokemonData.get "id" with
      | error e => simp [hu, hj, hid, bind, Except.bind] at h
      | ok id =>
        cases hn : pokemonData.get "name" with
        | error e => simp [hu, hj, hid, hn, bind, Except.bind] at h
        | ok name =>
          cases hs : pokemonData.get "sprites" with
          | error e => simp [hu, hj, hid, hn, hs, bind, Except.bind] at h
          | ok sprites =>
            cases hi : sprites.get "front_default" with
            | error e => simp [hu, hj, hid, hn, hs, hi, bind, Except.bind] at h
            | ok image =>
              simp [hu, hj, hid, hn, hs, hi, bind, Except.bind, pure, Except.pure] at h
              subst h
              exact ⟨pokemonData, sprites, rfl, hid, hn, hs, hi, rfl⟩

theorem promiseAll_rejects (secondary : Nat → FetchResult) :
    ∀ (entries : List JsVal) (k i : Nat) (hi : i < entries.length),
      rejects (enrich entries[i] (secondary (k + i))) = true →
      rejects (promiseAll (mapAsync secondary k entries)) = true := by
  intro entries
  induction entries with
  | nil => intro k i hi; simp at hi
  | cons e rest ih =>
    intro k i hi hfail
    cases i with
    | zero =>
      simp only [List.getElem_cons_zero, Nat.add_zero] at hfail
      cases he : enrich e (secondary k) with
      | ok item => rw [he] at hfail; simp [rejects] at hfail
      | error msg => simp [mapAsync, promiseAll, he, rejects]
    | succ j =>
      have hj : j < rest.length := by simpa using hi
      simp only [List.getElem_cons_succ] at hfail
      have hrest := ih (k + 1) j hj (by rw [Nat.add_assoc, Nat.add_comm 1 j]; exact hfail)
      cases he : enrich e (secondary k) with
      | error msg => simp [mapAsync, promiseAll, he, rejects]
      | ok item =>
        cases hp : promiseAll (mapAsync secondary (k + 1) rest) with
        | ok items => rw [hp] at hrest; simp [rejects] at hrest
        | error msg => simp [mapAsync, promiseAll, he, hp, rejects]

theorem promiseAll_fulfils (secondary : Nat → FetchResult) :
    ∀ (entries : List JsVal) (k : Nat),
      (∀ (i : Nat) (hi : i < entries.length),
        rejects (enrich entries[i] (secondary (k + i))) = false) →
      ∃ items, promiseAll (mapAsync secondary k entries) = .ok items ∧
        items.length = entries.length ∧
        ∀ (i : Nat) (hi : i < entries.length), ∃ item, items[i]? = some item ∧
          enrich entries[i] (secondary (k + i)) = .ok item := by
  intro entries
  induction entries with
  | nil => intro k _; exact ⟨[], rfl, rfl, fun i hi => absurd hi (by simp)⟩
  | cons e rest ih =>
    intro k hall
    have h0 := hall 0 (by simp)
    simp only [List.getElem_cons_zero, Nat.add_zero] at h0
    cases he : enrich e (secondary k) with
    | error msg => rw [he] at h0; simp [rejects] at h0
    | ok item =>
      obtain ⟨items, hitems, hlen, hget⟩ := ih (k + 1) (by
        intro i hi
        have := hall (i + 1) (by simpa using hi)
        simp only [List.getElem_cons_succ] at this
        rw [Nat.add_assoc, Nat.add_comm 1 i]; exact this)
      refine ⟨item :: items, by simp [mapAsync, promiseAll, he, hitems], by simp [hlen], ?_⟩
      intro i hi
      cases i with
      | zero => exact ⟨item, by simp, by simpa using he⟩
      | succ j =>
        obtain ⟨it, hit, hen⟩ := hget j (by simpa using hi)
        refine ⟨it, by simpa using hit, ?_⟩
        simp only [List.getElem_cons_succ]
        rw [Nat.add_assoc, Nat.add_comm 1 j] at hen; exact hen

/-- C1 (counterexample): the index call returns two entries and every secondary
request fails, yet after `fetchPokemonList` the loading flag is `false`, not
`true`, and the screen renders the grid instead of the loading view. -/
theorem fetchPokemonList_failure_leaves_loading :
    indexEntries sampleIndex = .ok [bulbasaurEntry, ivysaurEntry] ∧
    rejects (enrich bulbasaurEntry networkFailure) = true ∧
    (fetchPokemonList sampleIndex (fun _ => networkFailure) ListState.initial).loading = false ∧
    listView (fetchPokemonList sampleIndex (fun _ => networkFailure) ListState.initial) ≠
      .loadingView := by
  refine ⟨rfl, rfl, rfl, ?_⟩
  intro h
  have : listView (fetchPokemonList sampleIndex (fun _ => networkFailure) ListState.initial) =
      .grid [] := rfl
  rw [this] at h
  cases h

theorem enrich_rejects_of_request_failure (pokemon : JsVal) (r : FetchResult)
    (h : rejects (awaitJson r) = true) : rejects (enrich pokemon r) = true := by
  unfold enrich
  cases hu : pokemon.get "url" with
  | error e => rfl
  | ok url =>
    cases hj : awaitJson r with
    | error e => rfl
    | ok data => rw [hj] at h; simp [rejects] at h

theorem enrich_ignores_status (pokemon : JsVal) (status status2 : Nat)
    (json : Except String JsVal) :
    enrich pokemon (.resolved { status := status, json := json }) =
      enrich pokemon (.resolved { status := status2, json := json }) := rfl

theorem enrich_server_error_with_record :
    rejects (enrich bulbasaurEntry serverErrorWithRecord) = false := rfl

theorem fetchPokemonList_server_error_populates :
    (fetchPokemonList singleIndex (fun _ => serverErrorWithRecord)
      ListState.initial).pokemonList.length = 1 ∧
    (fetchPokemonList singleIndex (fun _ => serverErrorWithRecord)
      ListState.initial).loading = false := ⟨rfl, rfl⟩

/-- C1 (amended): when the callback of at least one secondary request rejects
(its `fetch` rejects, its `response.json()` rejects, or a field read throws),
after `fetchPokemonList` the loading flag is `false` and `pokemonList` is
unchanged, so starting from the mounted screen the grid is rendered with no
item: no partial list is shown. -/
theorem fetchPokemonList_all_or_nothing (index : FetchResult) (secondary : Nat → FetchResult)
    (s : ListState) (entries : List JsVal) (i : Nat) (hi : i < entries.length)
    (hindex : indexEntries index = .ok entries)
    (hfail : rejects (enrich entries[i] (secondary i)) = true) :
    (fetchPokemonList index secondary s).loading = false ∧
    (fetchPokemonList index secondary s).pokemonList = s.pokemonList ∧
    (fetchPokemonList index secondary ListState.initial).pokemonList = [] ∧
    listView (fetchPokemonList index secondary ListState.initial) = .grid [] := by
  have hrej := promiseAll_rejects secondary entries 0 i hi (by simpa using hfail)
  have hd : ∃ msg, detailedPokemonList index secondary = .error msg := by
    unfold detailedPokemonList
    simp only [hindex, bind, Except.bind]
    cases hp : promiseAll (mapAsync secondary 0 entries) with
    | ok items => rw [hp] at hrej; simp [rejects] at hrej
    | error msg => exact ⟨msg, rfl⟩
  obtain ⟨msg, hmsg⟩ := hd
  simp [fetchPokemonList, hmsg, listView, ListState.initial]

/-- C1 (amended) at the sample index with the second request failing. -/
theorem fetchPokemonList_all_or_nothing_witness :
    (fetchPokemonList sampleIndex (fun i => if i = 0 then bulbasaurResponse else networkFailure)
      ListState.initial).loading = false ∧
    (fetchPokemonList sampleIndex (fun i => if i = 0 then bulbasaurResponse else networkFailure)
      ListState.initial).pokemonList = ListState.initial.pokemonList ∧
    (fetchPokemonList sampleIndex (fun i => if i = 0 then bulbasaurResponse else networkFailure)
      ListState.initial).pokemonList = [] ∧
    listView (fetchPokemonList sampleIndex
      (fun i => if i = 0 then bulbasaurResponse else networkFailure) ListState.initial) =
      .grid [] :=
  fetchPokemonList_all_or_nothing sampleIndex
    (fun i => if i = 0 then bulbasaurResponse else networkFailure) ListState.initial
    [bulbasaurEntry, ivysaurEntry] 1 (by decide) rfl rfl

/-- C4 (counterexample): the index call returns one entry and its secondary
request succeeds with the body `{"sprites": {}}`. The callback fulfils, the list
has one item whose `id` is `undefined`, and the first grid cell is not rendered:
`item.id.toString()` throws, so there is no badge showing the id. -/
theorem grid_cell_throws_without_id :
    indexEntries singleIndex = .ok [bulbasaurEntry] ∧
    rejects (enrich bulbasaurEntry spritesOnlyResponse) = false ∧
    (fetchPokemonList singleIndex (fun _ => spritesOnlyResponse) ListState.initial).loading =
      false ∧
    (fetchPokemonList singleIndex (fun _ => spritesOnlyResponse)
      ListState.initial).pokemonList.length = 1 ∧
    cellAt sampleHost
      (listView (fetchPokemonList singleIndex (fun _ => spritesOnlyResponse) ListState.initial))
      0 = some (.error "Cannot read properties of undefined (reading toString)") := by
  refine ⟨rfl, rfl, rfl, rfl, rfl⟩

/-- C4 (amended): when the index call returns `n` entries and all `n` secondary
requests succeed, after `fetchPokemonList` `loading = false`, the screen renders
the grid fed with `pokemonList`, and `pokemonList` has `n` items in index order;
item `i` carries `id`, `name` and `sprites.front_default` of the `i`-th
secondary response and `url` of the `i`-th entry. Whenever `keyExtractor` does
not throw on that item and its name is a string, the `i`-th grid cell is
rendered and the children of its badge are `#` followed by that id; for a
numeric id the key extractor does not throw. -/
theorem fetchPokemonList_all_succeed (host : Host) (index : FetchResult)
    (secondary : Nat → FetchResult) (s : ListState) (entries : List JsVal)
    (hindex : indexEntries index = .ok entries)
    (hall : ∀ (i : Nat) (hi : i < entries.length),
      rejects (enrich entries[i] (secondary i)) = false) :
    (fetchPokemonList index secondary s).loading = false ∧
    listView (fetchPokemonList index secondary s) =
      .grid (fetchPokemonList index secondary s).pokemonList ∧
    (fetchPokemonList index secondary s).pokemonList.length = entries.length ∧
    ∀ (i : Nat) (hi : i < entries.length), ∃ item pokemonData sprites,
      (fetchPokemonList index secondary s).pokemonList[i]? = some item ∧
      awaitJson (secondary i) = .ok pokemonData ∧
      pokemonData.get "id" = .ok item.id ∧
      pokemonData.get "name" = .ok item.name ∧
      pokemonData.get "sprites" = .ok sprites ∧
      sprites.get "front_default" = .ok item.image ∧
      entries[i].get "url" = .ok item.url ∧
      (∀ (key name : String), keyExtractor host item = .ok key → item.name = .str name →
        cellAt host (listView (fetchPokemonList index secondary s)) i =
          some (.ok { key := key,
                      content := { image := item.image,
                                   name := capitalize host.toUpperCase (utf16 name.toList),
                                   badge := [.str "#", item.id] } })) ∧
      (∀ n : Int, item.id = .num n → keyExtractor host item = .ok (host.toStringOf (.num n))) := by
  obtain ⟨items, hitems, hlen, hget⟩ := promiseAll_fulfils secondary entries 0 (by simpa using hall)
  have hd : detailedPokemonList index secondary = .ok items := by
    unfold detailedPokemonList
    simp only [hindex, bind, Except.bind, hitems]
  have hview : listView (fetchPokemonList index secondary s) = .grid items := by
    simp [fetchPokemonList, hd, listView]
  have hlist : (fetchPokemonList index secondary s).pokemonList = items := by
    simp [fetchPokemonList, hd]
  refine ⟨by simp [fetchPokemonList, hd], by rw [hview, hlist], by rw [hlist, hlen], ?_⟩
  intro i hi
  obtain ⟨item, hitem, hen⟩ := hget i hi
  rw [Nat.zero_add] at hen
  obtain ⟨pokemonData, sprites, hj, hid, hn, hs, him, hu⟩ := enrich_ok hen
  refine ⟨item, pokemonData, sprites, by rw [hlist]; exact hitem, hj, hid, hn, hs, him, hu,
    ?_, ?_⟩
  · intro key name hkey hname
    rw [hview]
    simp [cellAt, hitem, gridCell, hkey, renderItem, hname, bind, Except.bind, pure, Except.pure]
  · intro n hnum
    simp [keyExtractor, hnum]

/-- C4 (amended) at the sample index with both secondary requests answered by
the `bulbasaur` record: the first cell has key `1` and badge `#`, `1`. -/
theorem fetchPokemonList_all_succeed_witness :
    (fetchPokemonList sampleIndex (fun _ => bulbasaurResponse) ListState.initial).loading = false ∧
    (fetchPokemonList sampleIndex (fun _ => bulbasaurResponse)
      ListState.initial).pokemonList.length = 2 ∧
    ∃ cell, cellAt sampleHost
        (listView (fetchPokemonList sampleIndex (fun _ => bulbasaurResponse) ListState.initial))
        0 = some (.ok cell) ∧
      cell.key = "1" ∧ cell.content.badge = [.str "#", .num 1] := by
  have h := fetchPokemonList_all_succeed sampleHost sampleIndex (fun _ => bulbasaurResponse)
    ListState.initial [bulbasaurEntry, ivysaurEntry] rfl
    (fun i hi => match i, hi with
      | 0, _ => rfl
      | 1, _ => rfl)
  refine ⟨h.1, h.2.2.1, ?_⟩
  obtain ⟨item, pokemonData, sprites, _, hj, hid, hn, _, _, _, hcell, hkey⟩ :=
    h.2.2.2 0 (by decide)
  have hdata : pokemonData = bulbasaurRecord := by
    have : awaitJson bulbasaurResponse = .ok bulbasaurRecord := rfl
    rw [this] at hj
    injection hj with hj
    exact hj.symm
  subst hdata
  have hidv : item.id = .num 1 := by
    have : bulbasaurRecord.get "id" = .ok (.num 1) := rfl
    rw [this] at hid
    injection hid with hid
    exact hid.symm
  have hnv : item.name = .str "bulbasaur" := by
    have : bulbasaurRecord.get "name" = .ok (.str "bulbasaur") := rfl
    rw [this] at hn
    injection hn with hn
    exact hn.symm
  refine ⟨_, hcell _ "bulbasaur" (hkey 1 hidv) hnv, rfl, ?_⟩
  simp [hidv]

theorem overlay_quiet_keeps_loading :
    ∀ (later : List OverlayEvent) (o : Overlay), o.ui.loadingDetails = true →
      Overlay.quiet o later = true → (o.run later).ui.loadingDetails = true := by
  intro later
  induction later with
  | nil => intro o h _; exact h
  | cons e rest ih =>
    intro o h hq
    cases e with
    | press item =>
      exact ih (o.step (.press item)) rfl (by simpa [Overlay.quiet] using hq)
    | close =>
      exact ih (o.step .close) (by simpa [Overlay.step, closeModal] using h)
        (by simpa [Overlay.quiet] using hq)
    | settle k r =>
      simp only [Overlay.quiet, Bool.and_eq_true, Bool.not_eq_true', decide_eq_false_iff_not] at hq
      have hstep : o.step (.settle k r) = o := by simp [Overlay.step, hq.1]
      have := ih (o.step (.settle k r)) (by rw [hstep]; exact h) hq.2
      simpa [Overlay.run] using this

/-- C3 (counterexample): press `bulbasaur`, close, press `ivysaur`; the request
of the first press then resolves. The request of the second press (number 1)
is still pending, the overlay is open, and it renders the record fetched by
the earlier press. -/
theorem overlay_shows_stale_record :
    ((Overlay.initial [bulbasaurItem, ivysaurItem]).run
      [.press bulbasaurItem, .close, .press ivysaurItem]).ui.loadingDetails = true ∧
    ((Overlay.initial [bulbasaurItem, ivysaurItem]).run
      [.press bulbasaurItem, .close, .press ivysaurItem,
       .settle 0 bulbasaurResponse]).pending = [1] ∧
    ((Overlay.initial [bulbasaurItem, ivysaurItem]).run
      [.press bulbasaurItem, .close, .press ivysaurItem,
       .settle 0 bulbasaurResponse]).ui.modalVisible = true ∧
    overlayBranch ((Overlay.initial [bulbasaurItem, ivysaurItem]).run
      [.press bulbasaurItem, .close, .press ivysaurItem,
       .settle 0 bulbasaurResponse]).ui = .recordBranch bulbasaurRecord := by
  refine ⟨rfl, ?_, rfl, ?_⟩
  · simp [Overlay.run, Overlay.step, Overlay.initial]
  · simp [Overlay.run, Overlay.step, Overlay.initial, handlePokemonPressSettled,
      handlePokemonPress, closeModal, awaitJson, bulbasaurResponse, overlayBranch,
      ListState.initial, bulbasaurRecord, JsVal.truthy]

/-- C3 (amended): in every state, after `closeModal` followed by
`handlePokemonPress` the overlay is open in the loading state with no record
(`loadingDetails = true`, `selectedPokemon = null`), and it keeps selecting
the loading branch, never a record, for as long as no pending detail request
settles. -/
theorem overlay_reopen_loading (o : Overlay) (item : Item) (later : List OverlayEvent)
    (hquiet : Overlay.quiet ((o.step .close).step (.press item)) later = true) :
    ((o.step .close).step (.press item)).ui.loadingDetails = true ∧
    ((o.step .close).step (.press item)).ui.selectedPokemon = .null ∧
    ((o.step .close).step (.press item)).ui.modalVisible = true ∧
    overlayBranch (((o.step .close).step (.press item)).run later).ui = .loadingBranch := by
  refine ⟨rfl, rfl, rfl, ?_⟩
  have h := overlay_quiet_keeps_loading later ((o.step .close).step (.press item)) rfl hquiet
  simp [overlayBranch, h]

/-- C3 (amended) after a record has been shown: reopen, then close and press
again while the request of the reopening press is pending. -/
theorem overlay_reopen_loading_witness :
    ((((Overlay.initial [bulbasaurItem]).run
      [.press bulbasaurItem, .settle 0 bulbasaurResponse]).step .close).step
      (.press bulbasaurItem)).ui.loadingDetails = true ∧
    ((((Overlay.initial [bulbasaurItem]).run
      [.press bulbasaurItem, .settle 0 bulbasaurResponse]).step .close).step
      (.press bulbasaurItem)).ui.selectedPokemon = .null ∧
    ((((Overlay.initial [bulbasaurItem]).run
      [.press bulbasaurItem, .settle 0 bulbasaurResponse]).step .close).step
      (.press bulbasaurItem)).ui.modalVisible = true ∧
    overlayBranch (((((Overlay.initial [bulbasaurItem]).run
      [.press bulbasaurItem, .settle 0 bulbasaurResponse]).step .close).step
      (.press bulbasaurItem)).run [.settle 0 bulbasaurResponse, .close,
        .press bulbasaurItem]).ui = .loadingBranch :=
  overlay_reopen_loading
    ((Overlay.initial [bulbasaurItem]).run [.press bulbasaurItem, .settle 0 bulbasaurResponse])
    bulbasaurItem [.settle 0 bulbasaurResponse, .close, .press bulbasaurItem]
    (by simp [Overlay.quiet, Overlay.run, Overlay.step, Overlay.initial])

/-- C5 (evaluation at the failing input): the request of a press settles with
a 404 response whose body is a JSON object. `response.ok` is false, yet
`selectedPokemon` holds that body and the overlay selects the record branch,
not the `No se pudieron cargar los detalles` branch. -/
theorem overlay_not_ok_body_selected :
    (Response.ok { status := 404, json := .ok (.obj [("detail", .str "Not found.")]) }) = false ∧
    (handlePokemonPressSettled notFoundJson
      (handlePokemonPress bulbasaurItem ListState.initial)).loadingDetails = false ∧
    (handlePokemonPressSettled notFoundJson
      (handlePokemonPress bulbasaurItem ListState.initial)).selectedPokemon =
      .obj [("detail", .str "Not found.")] ∧
    overlayBranch (handlePokemonPressSettled notFoundJson
      (handlePokemonPress bulbasaurItem ListState.initial)) =
      .recordBranch (.obj [("detail", .str "Not found.")]) := by
  refine ⟨by decide, rfl, rfl, rfl⟩

theorem overlay_failed_fetch_unavailable (item : Item) (s : ListState) (r : FetchResult)
    (hnull : s.selectedPokemon = .null) (hfail : rejects (awaitJson r) = true) :
    (handlePokemonPressSettled r (handlePokemonPress item s)).loadingDetails = false ∧
    (handlePokemonPressSettled r (handlePokemonPress item s)).selectedPokemon = .null ∧
    overlayBranch (handlePokemonPressSettled r (handlePokemonPress item s)) =
      .unavailableBranch := by
  cases hj : awaitJson r with
  | ok v => rw [hj] at hfail; simp [rejects] at hfail
  | error e =>
    simp [handlePokemonPressSettled, handlePokemonPress, hj, hnull, overlayBranch, JsVal.truthy]

theorem overlay_quiet_of_single_pending (k : Nat) :
    ∀ (later : List OverlayEvent) (o : Overlay), o.pending = [k] →
      (∀ e ∈ later, e.isPress = false ∧ e.settles k = false) →
      Overlay.quiet o later = true := by
  intro later
  induction later with
  | nil => intro o _ _; rfl
  | cons e rest ih =>
    intro o hp hall
    have he := hall e (List.mem_cons_self _ _)
    have hrest : ∀ e ∈ rest, e.isPress = false ∧ e.settles k = false :=
      fun x hx => hall x (List.mem_cons_of_mem _ hx)
    cases e with
    | press item => simp [OverlayEvent.isPress] at he
    | close => exact ih (o.step .close) (by simpa [Overlay.step] using hp) hrest
    | settle j r =>
      have hj : j ≠ k := by simpa [OverlayEvent.settles] using he.2
      have hnot : j ∉ o.pending := by simp [hp, hj]
      have hstep : o.step (.settle j r) = o := by simp [Overlay.step, hnot]
      simp only [Overlay.quiet, Bool.and_eq_true, Bool.not_eq_true', decide_eq_false_iff_not]
      exact ⟨hnot, by rw [hstep]; exact ih o hp hrest⟩

theorem overlay_reopen_no_earlier_request (o : Overlay) (item : Item)
    (later : List OverlayEvent) (hnone : o.pending = [])
    (hall : ∀ e ∈ later, e.isPress = false ∧ e.settles o.issued = false) :
    overlayBranch (((o.step .close).step (.press item)).run later).ui = .loadingBranch := by
  have hq := overlay_quiet_of_single_pending o.issued later ((o.step .close).step (.press item))
    (by simp [Overlay.step, hnone]) hall
  have h := overlay_quiet_keeps_loading later ((o.step .close).step (.press item)) rfl hq
  simp [overlayBranch, h]

theorem get_error_named {v : JsVal} {key message : String}
    (h : v.get key = .error message) : message ≠ "" := by
  cases v with
  | undefined =>
    simp only [JsVal.get, Except.error.injEq] at h
    rw [← h]
    exact append_ne_empty _ _ (append_ne_empty _ _ (by decide))
  | null =>
    simp only [JsVal.get, Except.error.injEq] at h
    rw [← h]
    exact append_ne_empty _ _ (append_ne_empty _ _ (by decide))
  | bool b => simp [JsVal.get] at h
  | num n => simp [JsVal.get] at h
  | str s => simp [JsVal.get] at h
  | arr items => simp [JsVal.get] at h
  | obj props => simp [JsVal.get] at h

theorem fetchPokemonData_error_named {r : FetchResult} {message : String}
    (hnamed : r.named = true) (h : fetchPokemonData r = .error message) : message ≠ "" := by
  cases r with
  | rejected m =>
    simp only [fetchPokemonData, Except.error.injEq] at h
    subst h
    simpa [FetchResult.named] using hnamed
  | resolved response =>
    unfold fetchPokemonData at h
    cases hok : response.ok with
    | false =>
      simp only [hok, Bool.not_false, if_true, Except.error.injEq] at h
      rw [← h]
      exact append_ne_empty _ _ (by decide)
    | true =>
      simp only [hok, Bool.not_true, Bool.false_eq_true, if_false] at h
      cases hj : response.json with
      | error m =>
        simp only [hj, bind, Except.bind, Except.error.injEq] at h
        subst h
        simpa [FetchResult.named, hj] using hnamed
      | ok data =>
        cases hg : data.get "name" with
        | error m =>
          simp only [hj, hg, bind, Except.bind, Except.error.injEq] at h
          subst h
          exact get_error_named hg
        | ok v => simp [hj, hg, bind, Except.bind, pure, Except.pure] at h

theorem fetchPokemon_keeps_error (r : FetchResult) (s : DetailState)
    (hnamed : r.named = true) (herr : s.error.truthy = true) :
    (fetchPokemon r s).loading = false ∧ (fetchPokemon r s).error.truthy = true := by
  unfold fetchPokemon
  cases hd : fetchPokemonData r with
  | ok data => exact ⟨rfl, herr⟩
  | error message =>
    have hne := fetchPokemonData_error_named hnamed hd
    exact ⟨rfl, by simp [JsVal.truthy, hne]⟩

theorem detail_error_invariant :
    ∀ (later : List DetailEvent) (d : Detail), d.ui.loading = false →
      d.ui.error.truthy = true → (∀ e ∈ later, e.named = true) →
      (d.run later).ui.loading = false ∧ (d.run later).ui.error.truthy = true := by
  intro later
  induction later with
  | nil => intro d hl he _; exact ⟨hl, he⟩
  | cons e rest ih =>
    intro d hl he hall
    have hrest : ∀ x ∈ rest, x.named = true := fun x hx => hall x (List.mem_cons_of_mem _ hx)
    have hnamed := hall e (List.mem_cons_self _ _)
    cases e with
    | idChanged => exact ih (d.step .idChanged) hl he hrest
    | settle r =>
      by_cases hin : 0 < d.inFlight
      · have hk := fetchPokemon_keeps_error r d.ui (by simpa [DetailEvent.named] using hnamed) he
        have hstep : d.step (.settle r) =
            { ui := fetchPokemon r d.ui, inFlight := d.inFlight - 1 } := by
          simp [Detail.step, hin]
        have := ih (d.step (.settle r)) (by rw [hstep]; exact hk.1) (by rw [hstep]; exact hk.2)
          hrest
        simpa [Detail.run] using this
      · have hstep : d.step (.settle r) = d := by simp [Detail.step, hin]
        have := ih (d.step (.settle r)) (by rw [hstep]; exact hl) (by rw [hstep]; exact he) hrest
        simpa [Detail.run] using this

/-- C10 (counterexample): the first request answers 200 with the body `false`;
the screen renders the error branch (`Datos no disponibles`). The identifier
changes and the new request succeeds: the screen renders the success branch. -/
theorem detail_error_branch_left :
    detailView (Detail.initial.run [.settle falseBody]).ui =
      .errorView (.str "Datos no disponibles") ∧
    detailView (Detail.initial.run [.settle falseBody, .idChanged,
      .settle bulbasaurResponse]).ui = .successView bulbasaurRecord := by
  constructor
  · rfl
  · rfl

/-- C10 (amended): once an error message is set and the screen renders the
error branch, every later state renders the error branch with a message set,
whatever identifier changes, successful requests and failed requests follow;
a later successful request never moves the screen to the success render. -/
theorem detail_error_absorbing (d : Detail) (later : List DetailEvent)
    (hloading : d.ui.loading = false) (herror : d.ui.error.truthy = true)
    (hnamed : ∀ e ∈ later, e.named = true) :
    detailView (d.run later).ui = .errorView (d.run later).ui.error ∧
    (d.run later).ui.error.truthy = true := by
  obtain ⟨hl, he⟩ := detail_error_invariant later d hloading herror hnamed
  simp [detailView, hl, he, JsVal.or]

/-- C10 (amended) after a 404: the identifier changes and the new request
succeeds, the error branch stays. -/
theorem detail_error_absorbing_witness :
    detailView ((Detail.initial.run [.settle notFoundText]).run
      [.idChanged, .settle bulbasaurResponse]).ui =
      .errorView ((Detail.initial.run [.settle notFoundText]).run
        [.idChanged, .settle bulbasaurResponse]).ui.error ∧
    ((Detail.initial.run [.settle notFoundText]).run
      [.idChanged, .settle bulbasaurResponse]).ui.error.truthy = true :=
  detail_error_absorbing (Detail.initial.run [.settle notFoundText])
    [.idChanged, .settle bulbasaurResponse] rfl (by decide) (by
      intro e he
      simp only [List.mem_cons, List.mem_singleton, List.not_mem_nil, or_false] at he
      rcases he with h | h <;> subst h <;> rfl)

end PokemonNavegacion
